import Mathlib

/-!
Shallow embedding of the result-chaining and history state machine of the
AI-Image-Editor-and-post-generator repository.

The embedded code lives in `src/App.tsx` (state hooks, `pushHistory`,
`handleUndo`, the tab auto-switch effect, `getActiveImageSource`,
`updateImageResult`, `processSingleImage`, `handleProcessImages`,
`handleAddManualCrop`) and `src/components/LanguageSwitcher.tsx`
(`runAutoCrop`).  TypeScript records become Lean structures; JavaScript
`undefined`/absent fields become `Option`; the `Record<string, ImageResult>`
map becomes an association list; the remote generative-AI collaborators are
oracles (their outcomes are parameters).  Cancellation is not modelled: every
claim under study concerns runs that are not cancelled, and the abort flag
starts `false` and is only ever set by a user cancel action.
-/

namespace ImgEditor

/-- Type `EditMode` from `src/types.ts`. -/
inductive EditMode
  | cleanupOnly
  | removeBg
  | themedBg
deriving DecidableEq

/-- The aspect-ratio enum from `src/types.ts` (values '1:1' | '4:5' | '3:2'
| '16:9' | '9:16'); renamed constructors keep the same five values. -/
inductive AspectKind
  | a1x1
  | a4x5
  | a3x2
  | a16x9
  | a9x16
deriving DecidableEq

/-- Type `Settings` from `src/types.ts`. -/
structure Settings where
  mode : EditMode
  theme : String
  harmonizeStyle : Bool
  lightCleanup : Bool
  backgroundBlur : Bool
  autoCrop : Bool
  aspectRatios : List AspectKind
deriving DecidableEq

/-- Type `CropProposal` from `src/types.ts`. -/
structure CropProposal where
  imageUrl : String
  aspect : AspectKind
  compositionScore : Nat
  rationale : String
deriving DecidableEq

/-- Type `Report` from `src/types.ts`. -/
structure Report where
  subjectDescription : String
  interventionType : String
  parametersUsed : String
deriving DecidableEq

/-- Type `ImageResult` from `src/types.ts`, at the JavaScript runtime level:
every field that can be absent at runtime is an `Option`.  The TypeScript
declaration marks `original` (and `cropProposals`) as required, but the
running code can build a record in which `original` is absent (see
`handleAddManualCrop`), so `original` is modelled as `Option String`.
An absent `cropProposals` is identified with `[]`: every reader in the
embedded code goes through `x?.cropProposals || []`, which cannot tell the
two apart. -/
structure ImageResult where
  original : Option String := none
  cleaned : Option String := none
  removedBg : Option String := none
  themedBg : Option String := none
  enhancedTheme : Option String := none
  filtered : Option String := none
  enhancedFilterPrompt : Option String := none
  cropProposals : List CropProposal := []
  report : Option Report := none
deriving DecidableEq

/-- The `Record<string, ImageResult>` map `imageResults`, as an association
list keyed by file name (insertion order preserved, as in a JS object). -/
abbrev Store := List (String × ImageResult)

/-- Reading `imageResults[key]`. -/
def lookupResult (store : Store) (key : String) : Option ImageResult :=
  (store.find? (fun kv => kv.1 == key)).map Prod.snd

/-- Writing `{...prev, [key]: r}`: replace in place if the key exists,
append otherwise (JS object key-update semantics). -/
def insertResult (store : Store) (key : String) (r : ImageResult) : Store :=
  if store.any (fun kv => kv.1 == key) then
    store.map (fun kv => if kv.1 == key then (key, r) else kv)
  else
    store ++ [(key, r)]

/-- Type `ViewTab` from `src/components/ImageViewer.tsx`. -/
inductive ViewTab
  | original
  | cleaned
  | removedBg
  | themedBg
  | crops
  | filtered
  | report
deriving DecidableEq

/-- The filter-selection pair held in a history entry
(`filter: { selected, customPrompt }` in `src/App.tsx`). -/
structure FilterState where
  selected : String
  customPrompt : String
deriving DecidableEq

/-- Type `HistoryState` from `src/App.tsx` lines 30-38. -/
structure HistoryState where
  results : Store
  tab : ViewTab
  settings : Settings
  filter : FilterState
deriving DecidableEq

/-- The slice of `App`'s React state that the claims are about.
`prevImageResultRef` is the `useRef` used by the tab auto-switch effect. -/
structure AppState where
  images : List String
  currentIndex : Nat
  imageResults : Store
  settings : Settings
  selectedFilter : String
  customFilterPrompt : String
  activeTab : ViewTab
  history : List HistoryState
  prevImageResultRef : Option ImageResult
deriving DecidableEq

/-- Reading `images[currentIndex]?.name` (the current image's key, if any). -/
def currentImageName (s : AppState) : Option String :=
  s.images.get? s.currentIndex

/-- Reading `imageResults[currentImage?.name]` (the `currentImageResult` memo). -/
def currentImageResult (s : AppState) : Option ImageResult :=
  (currentImageName s).bind (fun n => lookupResult s.imageResults n)

/-- The snapshot recorded by `pushHistory`: the four undo-covered
components of the state. -/
def snapshot (s : AppState) : HistoryState :=
  { results := s.imageResults
    tab := s.activeTab
    settings := s.settings
    filter := { selected := s.selectedFilter, customPrompt := s.customFilterPrompt } }

/-- JS `Array.prototype.slice(-n)`: the last `n` elements (all of them when
the list is shorter). -/
def sliceLast (n : Nat) (l : List α) : List α :=
  l.drop (l.length - n)

/-- Function `pushHistory` from `src/App.tsx` lines 199-212:
`setHistory(prev => [...prev.slice(-19), snapshot])`. -/
def pushHistory (s : AppState) : AppState :=
  { s with history := sliceLast 19 s.history ++ [snapshot s] }

/-- Function `handleUndo` from `src/App.tsx` lines 214-230: no-op on an empty stack,
otherwise pop the last entry and restore the four components plus the
auto-switch ref. -/
def handleUndo (s : AppState) : AppState :=
  match s.history.getLast? with
  | none => s
  | some prevState =>
      { s with
        history := s.history.dropLast
        imageResults := prevState.results
        activeTab := prevState.tab
        settings := prevState.settings
        selectedFilter := prevState.filter.selected
        customFilterPrompt := prevState.filter.customPrompt
        prevImageResultRef :=
          (currentImageName s).bind (fun n => lookupResult prevState.results n) }

/-- Overwrite the four undo-covered components with given values; an
arbitrary mutation of exactly those fields (`setImageResults`,
`setActiveTab`, `setSettings`, `setSelectedFilter`, `setCustomFilterPrompt`
in the source never touch the history stack). -/
def setComps (s : AppState) (c : HistoryState) : AppState :=
  { s with
    imageResults := c.results
    activeTab := c.tab
    settings := c.settings
    selectedFilter := c.filter.selected
    customFilterPrompt := c.filter.customPrompt }

/-- A sequence of `mutate the four components; pushHistory` steps, one per
list element (each push records the components just written). -/
def pushSeq (s : AppState) : List HistoryState → AppState
  | [] => s
  | c :: cs => pushSeq (pushHistory (setComps s c)) cs

/-- JS truthiness of `o?.field` for an optional record with an optional
string field (artifact URLs are data/blob URLs, never the empty string). -/
def hasVal (o : Option ImageResult) (f : ImageResult → Option String) : Bool :=
  (o.bind f).isSome

/-- Body of the tab auto-switch effect, `src/App.tsx` lines 155-172: given
the previous ref value, the (possibly absent) current `ImageResult` and the
current tab, the tab after the effect runs. -/
def autoSwitchTab (prevRef : Option ImageResult) (cur : Option ImageResult)
    (tab : ViewTab) : ViewTab :=
  match cur with
  | none => ViewTab.original
  | some r =>
      if r.filtered.isSome && !hasVal prevRef ImageResult.filtered then ViewTab.filtered
      else if r.themedBg.isSome && !hasVal prevRef ImageResult.themedBg then ViewTab.themedBg
      else if r.cleaned.isSome && !hasVal prevRef ImageResult.cleaned then ViewTab.cleaned
      else if r.removedBg.isSome && !hasVal prevRef ImageResult.removedBg then ViewTab.removedBg
      else tab

/-- One firing of the auto-switch `useEffect`: recompute the tab from the
ref and the current result, then store the current result in the ref. -/
def runTabEffect (s : AppState) : AppState :=
  let cur := currentImageResult s
  { s with
    activeTab := autoSwitchTab s.prevImageResultRef cur s.activeTab
    prevImageResultRef := cur }

/-- Selecting another thumbnail (`onSelect={setCurrentIndex}`): the index
changes, and the effect (whose dependency is `currentImageResult`) fires
again exactly when the viewed result value changed. -/
def selectImage (s : AppState) (i : Nat) : AppState :=
  let switched : AppState := { s with currentIndex := i }
  if currentImageResult switched = currentImageResult s then switched
  else runTabEffect switched

/-- The value fed into the next operation: a `File` (identified by name) or
a data-URL string, mirroring `File | string` in the source. -/
inductive ImageSource
  | file (name : String)
  | url (u : String)
deriving DecidableEq

/-- Function `getActiveImageSource` from `src/App.tsx` lines 175-196, for a given
current image key, its stored result and the active tab.  (The source
throws when no image is selected at all; the claims quantify over an
existing current image, passed here by name.) -/
def getActiveImageSource (currentImage : String) (res : Option ImageResult)
    (tab : ViewTab) : ImageSource :=
  match res with
  | none => ImageSource.file currentImage
  | some r =>
      match tab with
      | ViewTab.cleaned =>
          match r.cleaned with
          | some u => ImageSource.url u
          | none => ImageSource.file currentImage
      | ViewTab.removedBg =>
          match r.removedBg with
          | some u => ImageSource.url u
          | none => ImageSource.file currentImage
      | ViewTab.themedBg =>
          match r.themedBg with
          | some u => ImageSource.url u
          | none => ImageSource.file currentImage
      | ViewTab.filtered =>
          match r.filtered with
          | some u => ImageSource.url u
          | none => ImageSource.file currentImage
      | _ => ImageSource.file currentImage

/-- The stored value at exactly the given tag, when that tag names one of
the four single-image artifact slots (used to state claim C4). -/
def slotValue (r : ImageResult) : ViewTab → Option String
  | ViewTab.cleaned => r.cleaned
  | ViewTab.removedBg => r.removedBg
  | ViewTab.themedBg => r.themedBg
  | ViewTab.filtered => r.filtered
  | _ => none

/-- A `Partial<ImageResult>` as passed to `updateImageResult`: a field that
is `some` is present in the patch object.  No call site ever puts
`original` in the patch, so the patch has no `original` field. -/
structure ResultPatch where
  cleaned : Option String := none
  removedBg : Option String := none
  themedBg : Option String := none
  enhancedTheme : Option String := none
  filtered : Option String := none
  enhancedFilterPrompt : Option String := none
  cropProposals : Option (List CropProposal) := none
  report : Option Report := none
deriving DecidableEq

/-- Model of `URL.createObjectURL(imageFile)`: a blob URL derived from the
file.  (The browser mints a fresh URL per call; only the first call's value
is ever stored for a given image, so a per-name value is faithful.) -/
def objectUrlOf (name : String) : String :=
  "blob:" ++ name

/-- The object built by `updateImageResult`'s state update:
`{...prev[key], original: prev[key]?.original || URL.createObjectURL(file),
cropProposals: prev[key]?.cropProposals || [], ...data}` — spread of the
previous record, then the two lazily-seeded defaults, then the patch. -/
def mergeResult (prevR : Option ImageResult) (key : String) (data : ResultPatch) :
    ImageResult :=
  { original := (prevR.bind ImageResult.original).orElse (fun _ => some (objectUrlOf key))
    cleaned := data.cleaned.orElse (fun _ => prevR.bind ImageResult.cleaned)
    removedBg := data.removedBg.orElse (fun _ => prevR.bind ImageResult.removedBg)
    themedBg := data.themedBg.orElse (fun _ => prevR.bind ImageResult.themedBg)
    enhancedTheme := data.enhancedTheme.orElse (fun _ => prevR.bind ImageResult.enhancedTheme)
    filtered := data.filtered.orElse (fun _ => prevR.bind ImageResult.filtered)
    enhancedFilterPrompt :=
      data.enhancedFilterPrompt.orElse (fun _ => prevR.bind ImageResult.enhancedFilterPrompt)
    cropProposals := data.cropProposals.getD ((prevR.map ImageResult.cropProposals).getD [])
    report := data.report.orElse (fun _ => prevR.bind ImageResult.report) }

/-- Function `updateImageResult` from `src/App.tsx` lines 254-264. -/
def updateImageResult (store : Store) (key : String) (data : ResultPatch) : Store :=
  insertResult store key (mergeResult (lookupResult store key) key data)

/-- Function `handleAddManualCrop` from `src/App.tsx` lines 464-485:
`{...currentResult, cropProposals: [manualProposal,
...(currentResult?.cropProposals || [])]}` — note that, unlike
`updateImageResult`, this spread does NOT seed `original`. -/
def handleAddManualCrop (store : Store) (key croppedUrl : String) : Store :=
  let currentResult := lookupResult store key
  let newR : ImageResult :=
    { original := currentResult.bind ImageResult.original
      cleaned := currentResult.bind ImageResult.cleaned
      removedBg := currentResult.bind ImageResult.removedBg
      themedBg := currentResult.bind ImageResult.themedBg
      enhancedTheme := currentResult.bind ImageResult.enhancedTheme
      filtered := currentResult.bind ImageResult.filtered
      enhancedFilterPrompt := currentResult.bind ImageResult.enhancedFilterPrompt
      cropProposals :=
        { imageUrl := croppedUrl
          aspect := AspectKind.a1x1
          compositionScore := 100
          rationale := "Custom crop created by user." } ::
        ((currentResult.map ImageResult.cropProposals).getD [])
      report := currentResult.bind ImageResult.report }
  insertResult store key newR

/-- One crop suggestion as parsed from the remote analysis response in
`runAutoCrop` (`src/components/LanguageSwitcher.tsx` lines 897-918).
`clientCrop` is the outcome of the local `performClientSideCrop` call for
this suggestion: `none` when the local crop math throws. -/
structure RemoteCropSuggestion where
  aspect : AspectKind
  compositionScore : Nat
  rationale : String
  clientCrop : Option String
deriving DecidableEq

/-- Outcome of the remote crop-analysis call inside `runAutoCrop`:
the call throws, returns no text, returns unparsable JSON, or returns a
parsed suggestion list. -/
inductive CropAnalysis
  | apiError (msg : String)
  | noText
  | parseFailure
  | parsed (suggestions : List RemoteCropSuggestion)
deriving DecidableEq

/-- Per-suggestion post-processing in `runAutoCrop`: drop suggestions whose
aspect ratio was not requested, and drop suggestions whose local crop
failed; otherwise build the `CropProposal`. -/
def postProcessSuggestion (requested : List AspectKind) (s : RemoteCropSuggestion) :
    Option CropProposal :=
  if requested.contains s.aspect then
    s.clientCrop.map (fun u =>
      { imageUrl := u
        aspect := s.aspect
        compositionScore := s.compositionScore
        rationale := s.rationale })
  else none

/-- Function `runAutoCrop` from `src/components/LanguageSwitcher.tsx` lines 809-921.
`analysis` is the remote collaborator, a function of the image source it is
shown.  An empty requested list returns `[]` before any remote work; a
thrown remote call propagates as an error; empty/unparsable analysis text
yields `[]`; otherwise the suggestions are post-processed and failures are
silently dropped. -/
def runAutoCrop (analysis : String → CropAnalysis) (image : String)
    (requested : List AspectKind) : Except String (List CropProposal) :=
  if requested.isEmpty then Except.ok []
  else
    match analysis image with
    | CropAnalysis.apiError m => Except.error m
    | CropAnalysis.noText => Except.ok []
    | CropAnalysis.parseFailure => Except.ok []
    | CropAnalysis.parsed ss =>
        Except.ok (ss.filterMap (postProcessSuggestion requested))

/-- Outcomes of the external collaborators for one image's pipeline run:
`edit` is `runImageEditing`, `rep` is `generateImageReport`, and
`cropAnalysis` is the remote part of `runAutoCrop`. -/
structure PipelineOracle where
  edit : Except String String
  rep : Except String Report
  cropAnalysis : String → CropAnalysis

/-- Which stages of one `processSingleImage` run were entered, and with
what image input. -/
structure PipelineTrace where
  editInput : ImageSource
  reportInvoked : Bool
  cropInput : Option String
deriving DecidableEq

/-- Result of one `processSingleImage` run: whether it completed without a
thrown error, the store afterwards, and the stage trace. -/
structure PipelineResult where
  ok : Bool
  store : Store
  trace : PipelineTrace
deriving DecidableEq

/-- The single-artifact patch written by the edit stage for the current
`Settings.mode` (`src/App.tsx` lines 289-295). -/
def modePatch (settings : Settings) (editedUrl : String) : ResultPatch :=
  match settings.mode with
  | EditMode.cleanupOnly => { cleaned := some editedUrl }
  | EditMode.removeBg => { removedBg := some editedUrl }
  | EditMode.themedBg => { themedBg := some editedUrl, enhancedTheme := some settings.theme }

/-- Function `processSingleImage` from `src/App.tsx` lines 253-316 (non-cancelled
run): edit stage, then report stage, then — only under `settings.autoCrop`
— the crop stage fed with the edit stage's output `editedImageUrl`.  A
thrown stage aborts the remaining stages; writes already made remain. -/
def processSingleImage (settings : Settings) (o : PipelineOracle)
    (imageName : String) (input : ImageSource) (store : Store) : PipelineResult :=
  match o.edit with
  | Except.error _ =>
      { ok := false, store := store
        trace := { editInput := input, reportInvoked := false, cropInput := none } }
  | Except.ok editedUrl =>
      let store1 := updateImageResult store imageName (modePatch settings editedUrl)
      match o.rep with
      | Except.error _ =>
          { ok := false, store := store1
            trace := { editInput := input, reportInvoked := true, cropInput := none } }
      | Except.ok r =>
          let store2 := updateImageResult store1 imageName { report := some r }
          if settings.autoCrop then
            match runAutoCrop o.cropAnalysis editedUrl settings.aspectRatios with
            | Except.error _ =>
                { ok := false, store := store2
                  trace := { editInput := input, reportInvoked := true
                             cropInput := some editedUrl } }
            | Except.ok proposals =>
                { ok := true
                  store := updateImageResult store2 imageName
                    { cropProposals := some proposals }
                  trace := { editInput := input, reportInvoked := true
                             cropInput := some editedUrl } }
          else
            { ok := true, store := store2
              trace := { editInput := input, reportInvoked := true, cropInput := none } }

/-- Whether a pipeline run with the given oracle completes without a thrown
stage (independent of the store it runs on). -/
def pipelineOk (settings : Settings) (o : PipelineOracle) : Bool :=
  match o.edit with
  | Except.error _ => false
  | Except.ok editedUrl =>
      match o.rep with
      | Except.error _ => false
      | Except.ok _ =>
          if settings.autoCrop then
            match runAutoCrop o.cropAnalysis editedUrl settings.aspectRatios with
            | Except.error _ => false
            | Except.ok _ => true
          else true

/-- Model of `images.entries()`: the list paired with indices starting at `k`. -/
def enumFrom (k : Nat) : List α → List (Nat × α)
  | [] => []
  | a :: as => (k, a) :: enumFrom (k + 1) as

/-- The observable outcome of a whole-batch run: the store, the ordered
list of image indices whose pipeline was invoked, their traces, and the
final `currentIndex` cursor. -/
structure BatchOut where
  store : Store
  invoked : List Nat
  traces : List PipelineTrace
  currentIndex : Nat
deriving DecidableEq

/-- The `for (const [index, image] of images.entries())` loop of
`handleProcessImages` (`src/App.tsx` lines 342-352): set the cursor to the
image, run its pipeline in batch mode (raw `File` input, no history push),
and break out of the loop on the first failure. -/
def batchLoop (settings : Settings) (oracle : Nat → PipelineOracle) :
    List (Nat × String) → Store → List Nat → List PipelineTrace → Nat → BatchOut
  | [], store, inv, trs, idx =>
      { store := store, invoked := inv, traces := trs, currentIndex := idx }
  | (i, name) :: rest, store, inv, trs, _ =>
      let r := processSingleImage settings (oracle i) name (ImageSource.file name) store
      if r.ok then
        batchLoop settings oracle rest r.store (inv ++ [i]) (trs ++ [r.trace]) i
      else
        { store := r.store, invoked := inv ++ [i], traces := trs ++ [r.trace]
          currentIndex := i }

/-- Function `handleProcessImages` from `src/App.tsx` lines 335-359 (non-cancelled
run): early return on an empty list; otherwise run the loop and then reset
the cursor to the first image (`setCurrentIndex(0)`), which happens on any
non-cancelled termination. -/
def handleProcessImages (settings : Settings) (oracle : Nat → PipelineOracle)
    (images : List String) (store : Store) (curIdx : Nat) : BatchOut :=
  if images.isEmpty then
    { store := store, invoked := [], traces := [], currentIndex := curIdx }
  else
    { batchLoop settings oracle (enumFrom 0 images) store [] [] 0 with
      currentIndex := 0 }

/-- Modelled from the spec: a slot "newly became non-empty" between the
previous and the newly-written `ArtifactSet`. -/
def newlyNonEmpty (prev : Option ImageResult) (r : ImageResult)
    (f : ImageResult → Option String) : Bool :=
  (f r).isSome && !hasVal prev f

/-- Modelled from the spec (§4.2 auto-advance rule), used as the
specification side of claim C3: fixed priority order
filtered > themedBg > cleaned > removedBg, firing only on a transition from
empty to non-empty, otherwise leaving the tab unchanged. -/
def specTabSwitch (prev : Option ImageResult) (r : ImageResult) (tab : ViewTab) : ViewTab :=
  if newlyNonEmpty prev r ImageResult.filtered then ViewTab.filtered
  else if newlyNonEmpty prev r ImageResult.themedBg then ViewTab.themedBg
  else if newlyNonEmpty prev r ImageResult.cleaned then ViewTab.cleaned
  else if newlyNonEmpty prev r ImageResult.removedBg then ViewTab.removedBg
  else tab

/-- The `initialSettings` constant from `src/App.tsx` lines 18-26. -/
def initialSettings : Settings :=
  { mode := EditMode.themedBg
    theme := "A vibrant, abstract background with swirling colors and a sense of energy."
    harmonizeStyle := true
    lightCleanup := true
    backgroundBlur := false
    autoCrop := true
    aspectRatios := [AspectKind.a1x1, AspectKind.a16x9] }

/-- A concrete report value, used to instantiate oracles in witnesses. -/
def cReport : Report :=
  { subjectDescription := "subject", interventionType := "edit", parametersUsed := "params" }

/-- A pipeline oracle whose three collaborators all succeed. -/
def cOracleOk : PipelineOracle :=
  { edit := Except.ok "data:edited"
    rep := Except.ok cReport
    cropAnalysis := fun _ => CropAnalysis.noText }

/-- A pipeline oracle whose edit stage throws. -/
def cOracleEditFail : PipelineOracle :=
  { edit := Except.error "blocked"
    rep := Except.ok cReport
    cropAnalysis := fun _ => CropAnalysis.noText }

/-- A per-image batch oracle: image 0 succeeds, every later image's edit
stage throws (so image 1 is the first failure). -/
def cBatchOracle : Nat → PipelineOracle :=
  fun i => if i = 0 then cOracleOk else cOracleEditFail

/-- A concrete app state with one image, nothing processed, empty history. -/
def cState0 : AppState :=
  { images := ["a.jpg"]
    currentIndex := 0
    imageResults := []
    settings := initialSettings
    selectedFilter := "none"
    customFilterPrompt := ""
    activeTab := ViewTab.original
    history := []
    prevImageResultRef := none }

/-- A concrete history entry. -/
def cEntry : HistoryState := snapshot cState0

/-- A concrete `ImageResult` whose only populated artifact is `cleaned`. -/
def cCleanedResult : ImageResult :=
  { original := some "blob:a.jpg", cleaned := some "data:cleaned" }

/-- Settings with auto-crop enabled but no aspect ratio selected. -/
def cSettingsNoRatios : Settings :=
  { initialSettings with autoCrop := true, aspectRatios := [] }

/-- A concrete crop proposal (shaped like a manual one). -/
def cProposal : CropProposal :=
  { imageUrl := "data:manual"
    aspect := AspectKind.a1x1
    compositionScore := 100
    rationale := "Custom crop created by user." }

/-- A store in which image `a.jpg` already holds one crop proposal. -/
def cStoreWithProposal : Store :=
  [("a.jpg", { original := some "blob:a.jpg", cropProposals := [cProposal] })]

/-- A concrete remote crop suggestion whose local crop succeeds. -/
def cCropSuggestion : RemoteCropSuggestion :=
  { aspect := AspectKind.a1x1
    compositionScore := 90
    rationale := "rule of thirds"
    clientCrop := some "data:crop1x1" }

/-- A pipeline oracle whose three collaborators succeed and whose crop
analysis returns one usable suggestion. -/
def cOracleCrop : PipelineOracle :=
  { edit := Except.ok "data:edited"
    rep := Except.ok cReport
    cropAnalysis := fun _ => CropAnalysis.parsed [cCropSuggestion] }

/-- The proposal `runAutoCrop` builds from `cCropSuggestion`. -/
def cAutoProposal : CropProposal :=
  { imageUrl := "data:crop1x1"
    aspect := AspectKind.a1x1
    compositionScore := 90
    rationale := "rule of thirds" }

/-- Image `a.jpg`'s artifacts: themed background populated. -/
def cResultA : ImageResult :=
  { original := some "blob:a.jpg", themedBg := some "data:themeA" }

/-- Image `b.jpg`'s artifacts: themed background populated. -/
def cResultB : ImageResult :=
  { original := some "blob:b.jpg", themedBg := some "data:themeB" }

/-- Two images, both already processed with a themed background, viewing
the first on its `themedBg` tab. -/
def cTwoImageState : AppState :=
  { images := ["a.jpg", "b.jpg"]
    currentIndex := 0
    imageResults := [("a.jpg", cResultA), ("b.jpg", cResultB)]
    settings := initialSettings
    selectedFilter := "none"
    customFilterPrompt := ""
    activeTab := ViewTab.themedBg
    history := []
    prevImageResultRef := some cResultA }

/-- Two images where only the first has artifacts, viewing the first on
its `themedBg` tab. -/
def cOneResultState : AppState :=
  { images := ["a.jpg", "b.jpg"]
    currentIndex := 0
    imageResults := [("a.jpg", cResultA)]
    settings := initialSettings
    selectedFilter := "none"
    customFilterPrompt := ""
    activeTab := ViewTab.themedBg
    history := []
    prevImageResultRef := some cResultA }

/-! ## Helper lemmas -/

theorem sliceLast_of_le {α : Type} (n : Nat) (l : List α) (h : l.length ≤ n) :
    sliceLast n l = l := by
  unfold sliceLast
  rw [Nat.sub_eq_zero_of_le h, List.drop_zero]

theorem length_sliceLast_le {α : Type} (n : Nat) (l : List α) :
    (sliceLast n l).length ≤ n := by
  unfold sliceLast
  rw [List.length_drop]
  omega

theorem sliceLast_absorb {α : Type} (l e : List α) (n m : Nat) (hn : n ≤ m + e.length) :
    sliceLast n (sliceLast m l ++ e) = sliceLast n (l ++ e) := by
  unfold sliceLast
  rw [List.drop_append_eq_append_drop, List.drop_append_eq_append_drop, List.drop_drop]
  simp only [List.length_append, List.length_drop]
  have h1 : l.length - m + (l.length - (l.length - m) + e.length - n)
      = l.length + e.length - n := by omega
  have h2 : l.length - (l.length - m) + e.length - n - (l.length - (l.length - m))
      = l.length + e.length - n - l.length := by omega
  rw [h1, h2]

theorem snapshot_setComps (s : AppState) (c : HistoryState) :
    snapshot (setComps s c) = c := rfl

theorem pushHistory_setComps_history (s : AppState) (c : HistoryState) :
    (pushHistory (setComps s c)).history = sliceLast 19 s.history ++ [c] := rfl

theorem pushSeq_history (cs : List HistoryState) :
    ∀ s : AppState, s.history.length ≤ 20 →
      (pushSeq s cs).history = sliceLast 20 (s.history ++ cs) := by
  induction cs with
  | nil =>
      intro s h
      show s.history = sliceLast 20 (s.history ++ [])
      rw [List.append_nil, sliceLast_of_le 20 s.history h]
  | cons c cs ih =>
      intro s h
      show (pushSeq (pushHistory (setComps s c)) cs).history = _
      have hlen : (pushHistory (setComps s c)).history.length ≤ 20 := by
        rw [pushHistory_setComps_history, List.length_append]
        have := length_sliceLast_le 19 s.history
        simp only [List.length_cons, List.length_nil]
        omega
      rw [ih _ hlen, pushHistory_setComps_history, List.append_assoc]
      have habs := sliceLast_absorb s.history ([c] ++ cs) 20 19
        (by simp only [List.length_append, List.length_cons, List.length_nil]; omega)
      rw [habs]
      rfl

theorem handleUndo_nil (s : AppState) (h : s.history = []) : handleUndo s = s := by
  unfold handleUndo
  rw [h]
  rfl

theorem handleUndo_history_length (s : AppState) :
    (handleUndo s).history.length ≤ s.history.length := by
  unfold handleUndo
  cases hg : s.history.getLast? with
  | none => exact Nat.le_refl _
  | some e =>
      show s.history.dropLast.length ≤ s.history.length
      rw [List.length_dropLast]
      omega

theorem undo_iterate_empties : ∀ (n : Nat) (s : AppState), s.history.length ≤ n →
    (handleUndo^[n] s).history = [] := by
  intro n
  induction n with
  | zero =>
      intro s h
      exact List.length_eq_zero.mp (Nat.le_zero.mp h)
  | succ n ih =>
      intro s h
      rw [Function.iterate_succ_apply]
      apply ih
      cases hh : s.history with
      | nil =>
          rw [handleUndo_nil s hh, hh]
          exact Nat.zero_le n
      | cons a tl =>
          have hne : s.history ≠ [] := by rw [hh]; exact List.cons_ne_nil a tl
          obtain ⟨e, he⟩ := Option.isSome_iff_exists.mp (List.getLast?_isSome.mpr hne)
          have hu : (handleUndo s).history = s.history.dropLast := by
            unfold handleUndo
            rw [he]
          rw [hu, List.length_dropLast]
          omega

theorem find?_map_update (store : Store) (k : String) (r : ImageResult) :
    ∀ (h : store.any (fun kv => kv.1 == k) = true),
      (store.map (fun kv => if kv.1 == k then (k, r) else kv)).find?
        (fun kv => kv.1 == k) = some (k, r) := by
  induction store with
  | nil => intro h; simp at h
  | cons kv tl ih =>
      intro h
      by_cases hk : kv.1 == k
      · simp only [List.map_cons, hk, if_true]
        rw [List.find?_cons_of_pos]
        simp
      · have htl : tl.any (fun kv => kv.1 == k) = true := by
          simp only [List.any_cons, hk, Bool.false_or] at h
          exact h
        simp only [List.map_cons, hk, if_false]
        rw [List.find?_cons_of_neg _ (by simp [hk])]
        exact ih htl

theorem find?_append_new (store : Store) (k : String) (r : ImageResult) :
    ∀ (h : store.any (fun kv => kv.1 == k) = false),
      (store ++ [(k, r)]).find? (fun kv => kv.1 == k) = some (k, r) := by
  induction store with
  | nil =>
      intro h
      simp only [List.nil_append]
      rw [List.find?_cons_of_pos]
      simp
  | cons kv tl ih =>
      intro h
      simp only [List.any_cons, Bool.or_eq_false_iff] at h
      simp only [List.cons_append]
      rw [List.find?_cons_of_neg _ (by simp [h.1])]
      exact ih (by simp [h.2])

theorem lookupResult_insert_self (store : Store) (k : String) (r : ImageResult) :
    lookupResult (insertResult store k r) k = some r := by
  unfold lookupResult insertResult
  by_cases h : store.any (fun kv => kv.1 == k)
  · rw [if_pos h, find?_map_update store k r h]
    rfl
  · rw [if_neg h, find?_append_new store k r (Bool.not_eq_true _ ▸ eq_false_of_ne_true h)]
    rfl

theorem lookup_update_self (store : Store) (key : String) (p : ResultPatch) :
    lookupResult (updateImageResult store key p) key
      = some (mergeResult (lookupResult store key) key p) :=
  lookupResult_insert_self store key _

theorem modePatch_cropProposals (settings : Settings) (u : String) :
    (modePatch settings u).cropProposals = none := by
  unfold modePatch
  cases settings.mode <;> rfl

theorem processSingleImage_ok (settings : Settings) (o : PipelineOracle)
    (name : String) (inp : ImageSource) (store : Store) :
    (processSingleImage settings o name inp store).ok = pipelineOk settings o := by
  unfold processSingleImage pipelineOk
  cases o.edit with
  | error m => rfl
  | ok u =>
      cases o.rep with
      | error m => rfl
      | ok r =>
          by_cases h : settings.autoCrop
          · simp only [h, if_true]
            cases runAutoCrop o.cropAnalysis u settings.aspectRatios <;> rfl
          · simp [h]

/-! ## Claim theorems -/

/-- C1 (undo round-trip): for every state `S`, a `pushHistory`, followed by
an arbitrary mutation of the four undo-covered components (the per-image
`ArtifactSet` map, the active tab, the settings, and the filter selection),
followed by one `handleUndo`, restores all four components to their values
in `S`. -/
theorem undo_round_trip (s : AppState) (c : HistoryState) :
    snapshot (handleUndo (setComps (pushHistory s) c)) = snapshot s := by
  have hhist : (setComps (pushHistory s) c).history.getLast? = some (snapshot s) := by
    show (sliceLast 19 s.history ++ [snapshot s]).getLast? = some (snapshot s)
    exact List.getLast?_concat _
  unfold handleUndo
  rw [hhist]
  rfl

/-- C2 (history bound): a push never leaves more than 20 entries; any
sequence of mutate-then-push steps starting from an empty stack leaves
exactly the most recent 20 recorded snapshots (oldest evicted first); when
the stack holds at most 20 entries, 20 undos empty it; and an undo on an
empty stack is a no-op — no state change, no error. -/
theorem history_bound :
    (∀ s : AppState, (pushHistory s).history.length ≤ 20)
    ∧ (∀ (s : AppState) (cs : List HistoryState), s.history = [] →
        (pushSeq s cs).history = sliceLast 20 cs)
    ∧ (∀ s : AppState, s.history.length ≤ 20 → (handleUndo^[20] s).history = [])
    ∧ (∀ s : AppState, s.history = [] → handleUndo s = s) := by
  refine ⟨?_, ?_, ?_, ?_⟩
  · intro s
    show (sliceLast 19 s.history ++ [snapshot s]).length ≤ 20
    rw [List.length_append]
    have := length_sliceLast_le 19 s.history
    simp only [List.length_cons, List.length_nil]
    omega
  · intro s cs h
    have hlen : s.history.length ≤ 20 := by rw [h]; exact Nat.zero_le 20
    rw [pushSeq_history cs s hlen, h, List.nil_append]
  · intro s h
    exact undo_iterate_empties 20 s h
  · intro s h
    exact handleUndo_nil s h

/-- Witness for C2 at a concrete state and push sequence. -/
theorem history_bound_witness :
    (pushSeq cState0 [cEntry]).history = sliceLast 20 [cEntry]
    ∧ (handleUndo^[20] cState0).history = []
    ∧ handleUndo cState0 = cState0 :=
  ⟨history_bound.2.1 cState0 [cEntry] rfl,
   history_bound.2.2.1 cState0 (by decide),
   history_bound.2.2.2 cState0 rfl⟩

/-- C3 (tab auto-advance): the tab auto-switch effect, on a write to the
currently-viewed image's `ArtifactSet`, computes exactly the
specification's fixed priority order filtered > themedBg > cleaned >
removedBg restricted to empty-to-non-empty transitions; and when no slot
newly became non-empty (in particular when an already-populated slot is
merely re-written), the active tab is left unchanged. -/
theorem tab_auto_advance :
    (∀ (prev : Option ImageResult) (r : ImageResult) (tab : ViewTab),
      autoSwitchTab prev (some r) tab = specTabSwitch prev r tab)
    ∧ (∀ (prev : Option ImageResult) (r : ImageResult) (tab : ViewTab),
        newlyNonEmpty prev r ImageResult.filtered = false →
        newlyNonEmpty prev r ImageResult.themedBg = false →
        newlyNonEmpty prev r ImageResult.cleaned = false →
        newlyNonEmpty prev r ImageResult.removedBg = false →
        autoSwitchTab prev (some r) tab = tab) := by
  constructor
  · intro prev r tab
    rfl
  · intro prev r tab h1 h2 h3 h4
    show specTabSwitch prev r tab = tab
    unfold specTabSwitch
    simp only [h1, h2, h3, h4, Bool.false_eq_true, if_false]

/-- Witness for C3: re-writing the already-populated `cleaned` slot does
not move the tab. -/
theorem tab_auto_advance_witness :
    autoSwitchTab (some cCleanedResult) (some cCleanedResult) ViewTab.cleaned
      = ViewTab.cleaned :=
  tab_auto_advance.2 (some cCleanedResult) cCleanedResult ViewTab.cleaned
    (by decide) (by decide) (by decide) (by decide)

/-- C4 (active-input resolution): for every image and every active tab,
the resolved input is the stored artifact value at exactly that tag when it
is non-empty, and the raw source image otherwise — never the value of a
different slot. -/
theorem active_input_resolution :
    ∀ (img : String) (res : Option ImageResult) (tab : ViewTab),
      getActiveImageSource img res tab =
        match res.bind (fun r => slotValue r tab) with
        | some u => ImageSource.url u
        | none => ImageSource.file img := by
  intro img res tab
  cases res with
  | none => cases tab <;> rfl
  | some r =>
      cases tab with
      | cleaned => cases r.cleaned <;> rfl
      | removedBg => cases r.removedBg <;> rfl
      | themedBg => cases r.themedBg <;> rfl
      | filtered => cases r.filtered <;> rfl
      | original => rfl
      | crops => rfl
      | report => rfl

theorem map_add_range_shift (k m : Nat) :
    List.map (fun j => k + j) (List.range (m + 1))
      = k :: List.map (fun j => k + 1 + j) (List.range m) := by
  rw [List.range_succ_eq_map, List.map_cons, List.map_map]
  have hfun : ((fun j => k + j) ∘ Nat.succ) = (fun j => k + 1 + j) := by
    funext j
    simp only [Function.comp]
    omega
  rw [hfun, Nat.add_zero]

theorem batchLoop_halt (settings : Settings) (oracle : Nat → PipelineOracle) :
    ∀ (images : List String) (k : Nat) (store : Store) (inv : List Nat)
      (trs : List PipelineTrace) (idx M : Nat),
      M < images.length →
      (∀ i, i < M → pipelineOk settings (oracle (k + i)) = true) →
      pipelineOk settings (oracle (k + M)) = false →
      (batchLoop settings oracle (enumFrom k images) store inv trs idx).invoked
        = inv ++ (List.range (M + 1)).map (fun j => k + j) := by
  intro images
  induction images with
  | nil =>
      intro k store inv trs idx M hM hpre hfail
      simp only [List.length_nil] at hM
      exact absurd hM (Nat.not_lt_zero M)
  | cons a as ih =>
      intro k store inv trs idx M hM hpre hfail
      show (batchLoop settings oracle ((k, a) :: enumFrom (k + 1) as) store inv trs idx).invoked
        = _
      cases M with
      | zero =>
          have hko : pipelineOk settings (oracle k) = false := by simpa using hfail
          have hr : (processSingleImage settings (oracle k) a (ImageSource.file a) store).ok
              = false := by
            rw [processSingleImage_ok]; exact hko
          simp only [batchLoop, hr, Bool.false_eq_true, if_false]
          rw [map_add_range_shift k 0]
          simp
      | succ m =>
          have hk : pipelineOk settings (oracle k) = true := by
            have := hpre 0 (Nat.succ_pos m)
            simpa using this
          have hr : (processSingleImage settings (oracle k) a (ImageSource.file a) store).ok
              = true := by
            rw [processSingleImage_ok]; exact hk
          have hpre2 : ∀ i, i < m → pipelineOk settings (oracle (k + 1 + i)) = true := by
            intro i hi
            have hp := hpre (i + 1) (Nat.succ_lt_succ hi)
            have harith : k + (i + 1) = k + 1 + i := by omega
            rwa [harith] at hp
          have hfail2 : pipelineOk settings (oracle (k + 1 + m)) = false := by
            have harith : k + (m + 1) = k + 1 + m := by omega
            rwa [harith] at hfail
          have hrec := ih (k + 1)
            (processSingleImage settings (oracle k) a (ImageSource.file a) store).store
            (inv ++ [k])
            (trs ++ [(processSingleImage settings (oracle k) a (ImageSource.file a) store).trace])
            k m (by simpa using Nat.lt_of_succ_lt_succ hM) hpre2 hfail2
          simp only [batchLoop, hr, if_true]
          rw [hrec, List.append_assoc]
          congr 1
          rw [map_add_range_shift k (m + 1)]
          rfl

/-- C5 (batch halt-on-failure): if the pipelines of images `0..M-1` succeed
and image `M`'s pipeline fails, the batch invokes the pipeline for exactly
the images `0..M` in order and for none after `M`; moreover the failing
image's remaining stages are aborted — an edit-stage failure skips the
report and crop stages, a report-stage failure skips the crop stage. -/
theorem batch_halt_on_failure (settings : Settings) (oracle : Nat → PipelineOracle)
    (images : List String) (store : Store) (curIdx M : Nat)
    (hM : M < images.length)
    (hpre : ∀ i, i < M → pipelineOk settings (oracle i) = true)
    (hfail : pipelineOk settings (oracle M) = false) :
    (handleProcessImages settings oracle images store curIdx).invoked = List.range (M + 1)
    ∧ (∀ (msg name : String) (inp : ImageSource) (st : Store),
        (oracle M).edit = Except.error msg →
          ((processSingleImage settings (oracle M) name inp st).trace.reportInvoked = false
            ∧ (processSingleImage settings (oracle M) name inp st).trace.cropInput = none))
    ∧ (∀ (msg name : String) (inp : ImageSource) (st : Store),
        (oracle M).rep = Except.error msg →
          (processSingleImage settings (oracle M) name inp st).trace.cropInput = none) := by
  refine ⟨?_, ?_, ?_⟩
  · have hne : images.isEmpty = false := by
      cases images with
      | nil => simp at hM
      | cons a as => rfl
    unfold handleProcessImages
    rw [hne]
    simp only [Bool.false_eq_true, if_false]
    have hmain := batchLoop_halt settings oracle images 0 store [] [] 0 M hM
      (by intro i hi; simpa using hpre i hi) (by simpa using hfail)
    simpa using hmain
  · intro msg name inp st hedit
    unfold processSingleImage
    rw [hedit]
    exact ⟨rfl, rfl⟩
  · intro msg name inp st hrep
    unfold processSingleImage
    cases hedit : (oracle M).edit with
    | error m => rfl
    | ok u =>
        rw [hrep]

/-- Witness for C5: three images, image 1's edit stage throws; exactly
images 0 and 1 are invoked. -/
theorem batch_halt_on_failure_witness :
    (handleProcessImages initialSettings cBatchOracle ["a.jpg", "b.jpg", "c.jpg"] [] 0).invoked
      = List.range 2 :=
  (batch_halt_on_failure initialSettings cBatchOracle ["a.jpg", "b.jpg", "c.jpg"] [] 0 1
    (by decide) (by decide) (by decide)).1

/-- C6 (code bug): a manual crop performed as the very first write for an
image creates its `ArtifactSet` with `original` absent, although the
declared `ImageResult` type requires `original` and every other write path
(`updateImageResult`, the filter write) lazily seeds it on first write.
The second conjunct shows the seeding that `updateImageResult` performs on
the same first-write situation, for contrast. -/
theorem manual_crop_first_write_omits_original :
    (lookupResult (handleAddManualCrop [] "a.jpg" "data:crop") "a.jpg").map
        ImageResult.original = some none
    ∧ (lookupResult (updateImageResult [] "a.jpg" { report := some cReport }) "a.jpg").map
        ImageResult.original = some (some (objectUrlOf "a.jpg")) := by
  constructor
  · decide
  · decide

/-- C7 counterexample: with `autoCrop = true` and an empty `aspectRatios`
list, the claim says the crop stage does not execute and the image's
`cropProposals` are left unchanged; the code runs the stage (its trace
records the crop input) and replaces the existing proposal list with `[]`. -/
theorem crop_guard_counterexample :
    cSettingsNoRatios.autoCrop = true
    ∧ cSettingsNoRatios.aspectRatios = []
    ∧ (lookupResult cStoreWithProposal "a.jpg").map ImageResult.cropProposals
        = some [cProposal]
    ∧ (lookupResult (processSingleImage cSettingsNoRatios cOracleOk "a.jpg"
          (ImageSource.file "a.jpg") cStoreWithProposal).store "a.jpg").map
        ImageResult.cropProposals = some []
    ∧ (processSingleImage cSettingsNoRatios cOracleOk "a.jpg" (ImageSource.file "a.jpg")
        cStoreWithProposal).trace.cropInput = some "data:edited" := by
  decide

/-- C7 (amended): the crop stage executes exactly when `Settings.autoCrop`
is true (regardless of `aspectRatios`), and it uses the edit stage's output
as its image source; `runAutoCrop` on an empty `aspectRatios` list returns
`[]` without consulting the remote analysis, and in that case the stage
replaces `cropProposals` with `[]`; when `autoCrop` is false the stage does
not execute and `cropProposals` is left unchanged. -/
theorem crop_stage_guard_amended (settings : Settings) (o : PipelineOracle)
    (name : String) (inp : ImageSource) (store : Store) (u : String) (r : Report)
    (hedit : o.edit = Except.ok u) (hrep : o.rep = Except.ok r) :
    (settings.autoCrop = true →
      (processSingleImage settings o name inp store).trace.cropInput = some u)
    ∧ (settings.autoCrop = false →
        (processSingleImage settings o name inp store).trace.cropInput = none
        ∧ (lookupResult (processSingleImage settings o name inp store).store name).map
            ImageResult.cropProposals
          = some (((lookupResult store name).map ImageResult.cropProposals).getD []))
    ∧ (∀ (analysis : String → CropAnalysis) (img : String),
        runAutoCrop analysis img [] = Except.ok [])
    ∧ (settings.autoCrop = true → settings.aspectRatios = [] →
        (lookupResult (processSingleImage settings o name inp store).store name).map
            ImageResult.cropProposals = some []) := by
  have hcrops2 :
      (lookupResult
          (updateImageResult (updateImageResult store name (modePatch settings u)) name
            { report := some r }) name).map ImageResult.cropProposals
        = some (((lookupResult store name).map ImageResult.cropProposals).getD []) := by
    rw [lookup_update_self, lookup_update_self]
    show some (mergeResult (some (mergeResult (lookupResult store name) name
        (modePatch settings u))) name { report := some r }).cropProposals = _
    unfold mergeResult
    rw [modePatch_cropProposals]
    rfl
  refine ⟨?_, ?_, ?_, ?_⟩
  · intro hac
    unfold processSingleImage
    rw [hedit, hrep]
    simp only [hac, if_true]
    cases runAutoCrop o.cropAnalysis u settings.aspectRatios <;> rfl
  · intro hac
    unfold processSingleImage
    rw [hedit, hrep]
    simp only [hac, Bool.false_eq_true, if_false]
    exact ⟨trivial, hcrops2⟩
  · intro analysis img
    rfl
  · intro hac hempty
    unfold processSingleImage
    rw [hedit, hrep]
    simp only [hac, if_true]
    have hrun : runAutoCrop o.cropAnalysis u settings.aspectRatios = Except.ok [] := by
      unfold runAutoCrop
      rw [hempty]
      rfl
    rw [hrun]
    show (lookupResult (updateImageResult _ name { cropProposals := some [] }) name).map
        ImageResult.cropProposals = some []
    rw [lookup_update_self]
    rfl

/-- Witness for C7 (amended): with the default settings (auto-crop on) the
crop stage runs on the edit stage's output. -/
theorem crop_stage_guard_amended_witness :
    (processSingleImage initialSettings cOracleOk "a.jpg" (ImageSource.file "a.jpg")
        []).trace.cropInput = some "data:edited" :=
  (crop_stage_guard_amended initialSettings cOracleOk "a.jpg" (ImageSource.file "a.jpg") []
    "data:edited" cReport rfl rfl).1 rfl

/-- C8 (crop write modes): for every image and every prior store contents,
a completed auto-crop run — a pipeline run whose edit, report and crop
stages all succeed, the last with result list `l` — leaves the image's
`cropProposals` equal to exactly `l`, replacing whatever sequence was there
before; whereas a manual crop prepends exactly one proposal — with
`compositionScore` fixed at 100 and the fixed rationale — at the front
while keeping all existing proposals in their prior order. -/
theorem crop_write_modes (settings : Settings) (o : PipelineOracle) (store : Store)
    (key : String) (inp : ImageSource) (u : String) (r : Report) (l : List CropProposal)
    (url : String)
    (hedit : o.edit = Except.ok u) (hrep : o.rep = Except.ok r)
    (hac : settings.autoCrop = true)
    (hcrop : runAutoCrop o.cropAnalysis u settings.aspectRatios = Except.ok l) :
    ((lookupResult (processSingleImage settings o key inp store).store key).map
        ImageResult.cropProposals = some l)
    ∧ ((lookupResult (handleAddManualCrop store key url) key).map ImageResult.cropProposals
        = some ({ imageUrl := url
                  aspect := AspectKind.a1x1
                  compositionScore := 100
                  rationale := "Custom crop created by user." } ::
                (((lookupResult store key).map ImageResult.cropProposals).getD []))) := by
  constructor
  · unfold processSingleImage
    rw [hedit, hrep]
    simp only [hac, if_true]
    rw [hcrop]
    show (lookupResult (updateImageResult _ key { cropProposals := some l }) key).map
        ImageResult.cropProposals = some l
    rw [lookup_update_self]
    rfl
  · unfold handleAddManualCrop
    rw [lookupResult_insert_self]
    rfl

/-- Witness for C8: an auto-crop run over a store that already holds one
proposal replaces the sequence with the run's single new proposal, and a
manual crop on the same store prepends one entry in front of the existing
one. -/
theorem crop_write_modes_witness :
    ((lookupResult (processSingleImage initialSettings cOracleCrop "a.jpg"
        (ImageSource.file "a.jpg") cStoreWithProposal).store "a.jpg").map
        ImageResult.cropProposals = some [cAutoProposal])
    ∧ ((lookupResult (handleAddManualCrop cStoreWithProposal "a.jpg" "data:crop")
        "a.jpg").map ImageResult.cropProposals
        = some ({ imageUrl := "data:crop"
                  aspect := AspectKind.a1x1
                  compositionScore := 100
                  rationale := "Custom crop created by user." } ::
                (((lookupResult cStoreWithProposal "a.jpg").map
                    ImageResult.cropProposals).getD []))) :=
  crop_write_modes initialSettings cOracleCrop cStoreWithProposal "a.jpg"
    (ImageSource.file "a.jpg") "data:edited" cReport [cAutoProposal] "data:crop"
    rfl rfl rfl (by rfl)

/-- C9 counterexample: switching from one processed image to another
processed image (no undo involved) leaves the active tab on `themedBg`
instead of resetting it to `original`: the auto-switch effect sees no
empty-to-non-empty transition and keeps the previous tab. -/
theorem view_reset_counterexample :
    currentImageName cTwoImageState = some "a.jpg"
    ∧ currentImageName (selectImage cTwoImageState 1) = some "b.jpg"
    ∧ (selectImage cTwoImageState 1).activeTab = ViewTab.themedBg
    ∧ (selectImage cTwoImageState 1).activeTab ≠ ViewTab.original := by
  decide

/-- C9 (amended): switching the currently-viewed image resets the active
tab to `original` only when the newly-viewed image has no `ArtifactSet`
(and the viewed result actually changed, so the effect fires); when the
newly-viewed image has an `ArtifactSet`, the auto-advance priority and
transition rules applied to the diff against the previously-viewed result
determine the tab, which in general is not `original`. -/
theorem view_reset_amended (s : AppState) (i : Nat)
    (hchange : currentImageResult { s with currentIndex := i } ≠ currentImageResult s) :
    (currentImageResult { s with currentIndex := i } = none →
      (selectImage s i).activeTab = ViewTab.original)
    ∧ (∀ r, currentImageResult { s with currentIndex := i } = some r →
        (selectImage s i).activeTab
          = autoSwitchTab s.prevImageResultRef (some r) s.activeTab) := by
  unfold selectImage
  rw [if_neg hchange]
  constructor
  · intro hnone
    show autoSwitchTab s.prevImageResultRef
        (currentImageResult { s with currentIndex := i }) s.activeTab = ViewTab.original
    rw [hnone]
    rfl
  · intro r hr
    show autoSwitchTab s.prevImageResultRef
        (currentImageResult { s with currentIndex := i }) s.activeTab = _
    rw [hr]

/-- Witness for C9 (amended): switching to an image with no artifacts
resets the tab to `original`. -/
theorem view_reset_amended_witness :
    (selectImage cOneResultState 1).activeTab = ViewTab.original :=
  (view_reset_amended cOneResultState 1 (by decide)).1 (by decide)

/-- C10 (implicit): a non-cancelled batch run over a non-empty image list
always ends with the current-image cursor reset to the first image — also
when the run halts early because some image's pipeline failed, not only on
full success. -/
theorem batch_cursor_reset (settings : Settings) (oracle : Nat → PipelineOracle)
    (images : List String) (store : Store) (curIdx : Nat)
    (hne : images ≠ []) :
    (handleProcessImages settings oracle images store curIdx).currentIndex = 0 := by
  unfold handleProcessImages
  have hempty : images.isEmpty = false := by
    cases images with
    | nil => exact absurd rfl hne
    | cons a as => rfl
  rw [hempty]
  rfl

/-- Witness for C10: a three-image batch whose second image fails still
resets the cursor to 0 (it was 2 before the run). -/
theorem batch_cursor_reset_witness :
    (handleProcessImages initialSettings cBatchOracle ["a.jpg", "b.jpg", "c.jpg"] []
        2).currentIndex = 0 :=
  batch_cursor_reset initialSettings cBatchOracle ["a.jpg", "b.jpg", "c.jpg"] [] 2
    (by decide)

end ImgEditor
